import Mathlib

/-!
Verification of the extraction pipeline of `json_api_to_parquet_pipeline`.

Shallow embedding of the code in `app/src/extractor.py`, `app/src/utils.py`,
`app/src/exceptions.py` and `app/src/config.py`.  Pure functions are embedded
as Lean functions; the effectful coroutines (`get_http_response`,
`process_date`, `extract`) are embedded as deterministic functions over an
explicit environment that records the outcome of every external interaction
(HTTP attempts, metadata-store queries, filesystem calls) together with the
randomness (jitter draws) as an oracle sequence.
-/

/-- Calendar date, as used for `datetime.date` values (only the fields the
pipeline reads: `year`, `month`, `day`). -/
structure PyDate where
  year : Nat
  month : Nat
  day : Nat
deriving DecidableEq, Repr

/-- JSON values as produced by `response.json()` and consumed by
`json.dumps`.  Numeric leaves are modelled as integers (the claims under
verification only concern structural properties such as key ordering). -/
inductive Json where
  | null : Json
  | bool (b : Bool) : Json
  | num (n : Int) : Json
  | str (s : String) : Json
  | arr (xs : List Json) : Json
  | obj (kvs : List (String × Json)) : Json

/-- Lowercase hexadecimal digit, as produced by CPython's `'%x'` formatting. -/
def hexDigit (n : Nat) : Char :=
  if n < 10 then Char.ofNat (48 + n) else Char.ofNat (87 + n)

/-- Fixed-width lowercase hexadecimal rendering (`'%04x'`-style when w = 4). -/
def hexPad (w n : Nat) : String :=
  match w with
  | 0 => ""
  | Nat.succ w => hexPad w (n / 16) ++ String.singleton (hexDigit (n % 16))

/-- Escape of one character inside a JSON string literal, following CPython's
`json.encoder.py_encode_basestring_ascii` (`ensure_ascii=True`, the
`json.dumps` default used at extractor.py:34). -/
def escapeChar (c : Char) : String :=
  let n := c.toNat
  if c = '\\' then "\\\\"
  else if c = '"' then "\\\""
  else if n = 8 then "\\b"
  else if n = 12 then "\\f"
  else if n = 10 then "\\n"
  else if n = 13 then "\\r"
  else if n = 9 then "\\t"
  else if n < 32 then "\\u" ++ hexPad 4 n
  else if n < 127 then String.singleton c
  else if n < 65536 then "\\u" ++ hexPad 4 n
  else
    let m := n - 65536
    "\\u" ++ hexPad 4 (55296 + m / 1024) ++ "\\u" ++ hexPad 4 (56320 + m % 1024)

/-- JSON string literal encoding: quotes around the escaped characters. -/
def encodeString (s : String) : String :=
  "\"" ++ String.join (s.data.map escapeChar) ++ "\""

/-- Comparison used for `sorted(dict.items())` in CPython's JSON encoder with
`sort_keys=True`: items are sorted by key (ties on the key cannot occur in a
`dict`, so comparing the values is never needed; `List.mergeSort` is stable,
matching CPython's stable `sorted`). -/
def itemLe (a b : String × String) : Bool :=
  decide (a.1 ≤ b.1)

mutual
/-- Embedding of `json.dumps(json_content, sort_keys=True)` as called at
extractor.py:33-34: default separators are comma-space between items and
colon-space after keys, and the keys of every object are emitted in sorted
order. -/
def dumps : Json → String
  | Json.null => "null"
  | Json.bool true => "true"
  | Json.bool false => "false"
  | Json.num n => toString n
  | Json.str s => encodeString s
  | Json.arr xs => "[" ++ String.intercalate ", " (dumpsList xs) ++ "]"
  | Json.obj kvs =>
      "\x7b" ++
        String.intercalate ", "
          (((dumpsItems kvs).mergeSort itemLe).map
            (fun p => encodeString p.1 ++ ": " ++ p.2)) ++
      "\x7d"

/-- Serialization of the elements of a JSON array, in order. -/
def dumpsList : List Json → List String
  | [] => []
  | x :: xs => dumps x :: dumpsList xs

/-- Serialization of the values of the items of a JSON object, keeping keys. -/
def dumpsItems : List (String × Json) → List (String × String)
  | [] => []
  | (k, v) :: kvs => (k, dumps v) :: dumpsItems kvs
end

/-- Key list of a JSON object has no duplicates (always true of a payload
that was parsed from JSON into a Python `dict`). -/
def nodupKeys : List String → Bool
  | [] => true
  | k :: ks => !(ks.contains k) && nodupKeys ks

mutual
/-- Well-formed payload: every object in it, at any depth, has distinct keys
(the invariant a Python `dict` enforces). -/
def wfJson : Json → Bool
  | Json.null => true
  | Json.bool _ => true
  | Json.num _ => true
  | Json.str _ => true
  | Json.arr xs => wfJsonList xs
  | Json.obj kvs => nodupKeys (kvs.map Prod.fst) && wfJsonItems kvs

/-- Well-formedness of every element of a JSON array. -/
def wfJsonList : List Json → Bool
  | [] => true
  | x :: xs => wfJson x && wfJsonList xs

/-- Well-formedness of every value of a JSON object. -/
def wfJsonItems : List (String × Json) → Bool
  | [] => true
  | (_, v) :: kvs => wfJson v && wfJsonItems kvs
end

/-- UTF-8 encoding of one character (`str.encode("utf-8")`), byte values as
naturals below 256. -/
def utf8Char (c : Char) : List Nat :=
  let n := c.toNat
  if n < 128 then [n]
  else if n < 2048 then [192 + n / 64, 128 + n % 64]
  else if n < 65536 then [224 + n / 4096, 128 + n / 64 % 64, 128 + n % 64]
  else [240 + n / 262144, 128 + n / 4096 % 64, 128 + n / 64 % 64, 128 + n % 64]

/-- UTF-8 encoding of a string as a byte list. -/
def utf8Encode (s : String) : List Nat :=
  s.data.flatMap utf8Char

/-! SHA-256 (`hashlib.sha256`), over byte lists, 32-bit words as naturals
reduced modulo 2^32. -/

/-- Reduction to a 32-bit word. -/
def w32 (n : Nat) : Nat := n % 4294967296

/-- Right rotation of a 32-bit word. -/
def rotr32 (r x : Nat) : Nat := w32 ((x >>> r) ||| (x <<< (32 - r)))

/-- SHA-256 choice function. -/
def shaCh (x y z : Nat) : Nat := (x &&& y) ^^^ ((x ^^^ 4294967295) &&& z)

/-- SHA-256 majority function. -/
def shaMaj (x y z : Nat) : Nat := (x &&& y) ^^^ (x &&& z) ^^^ (y &&& z)

/-- SHA-256 big sigma 0. -/
def bigSigma0 (x : Nat) : Nat := rotr32 2 x ^^^ rotr32 13 x ^^^ rotr32 22 x

/-- SHA-256 big sigma 1. -/
def bigSigma1 (x : Nat) : Nat := rotr32 6 x ^^^ rotr32 11 x ^^^ rotr32 25 x

/-- SHA-256 small sigma 0. -/
def smallSigma0 (x : Nat) : Nat := rotr32 7 x ^^^ rotr32 18 x ^^^ (x >>> 3)

/-- SHA-256 small sigma 1. -/
def smallSigma1 (x : Nat) : Nat := rotr32 17 x ^^^ rotr32 19 x ^^^ (x >>> 10)

/-- SHA-256 round constants (decimal rendering of the standard table). -/
def shaK : List Nat :=
  [1116352408, 1899447441, 3049323471,
   3921009573, 961987163, 1508970993,
   2453635748, 2870763221, 3624381080,
   310598401, 607225278, 1426881987,
   1925078388, 2162078206, 2614888103,
   3248222580, 3835390401, 4022224774,
   264347078, 604807628, 770255983,
   1249150122, 1555081692, 1996064986,
   2554220882, 2821834349, 2952996808,
   3210313671, 3336571891, 3584528711,
   113926993, 338241895, 666307205,
   773529912, 1294757372, 1396182291,
   1695183700, 1986661051, 2177026350,
   2456956037, 2730485921, 2820302411,
   3259730800, 3345764771, 3516065817,
   3600352804, 4094571909, 275423344,
   430227734, 506948616, 659060556,
   883997877, 958139571, 1322822218,
   1537002063, 1747873779, 1955562222,
   2024104815, 2227730452, 2361852424,
   2428436474, 2756734187, 3204031479,
   3329325298]

/-- SHA-256 initial hash state (decimal rendering of the standard values). -/
def shaH0 : List Nat :=
  [1779033703, 3144134277, 1013904242,
   2773480762, 1359893119, 2600822924,
   528734635, 1541459225]

/-- Message-schedule extension: append `fuel` further words to `w`. -/
def shaExtend (w : List Nat) : Nat → List Nat
  | 0 => w
  | Nat.succ fuel =>
      let i := w.length
      let next := w32 (smallSigma1 (w.getD (i - 2) 0) + w.getD (i - 7) 0 +
        smallSigma0 (w.getD (i - 15) 0) + w.getD (i - 16) 0)
      shaExtend (w ++ [next]) fuel

/-- One SHA-256 round on the state `[a, b, c, d, e, f, g, h]`. -/
def shaRound (st : List Nat) (kw : Nat × Nat) : List Nat :=
  match st with
  | [a, b, c, d, e, f, g, h] =>
      let t1 := w32 (h + bigSigma1 e + shaCh e f g + kw.1 + kw.2)
      let t2 := w32 (bigSigma0 a + shaMaj a b c)
      [w32 (t1 + t2), a, b, c, w32 (d + t1), e, f, g]
  | other => other

/-- SHA-256 compression of one 16-word block into the running hash state. -/
def shaBlock (hs : List Nat) (block : List Nat) : List Nat :=
  let w := shaExtend block 48
  let st := (shaK.zip w).foldl shaRound hs
  (hs.zip st).map (fun p => w32 (p.1 + p.2))

/-- Big-endian byte rendering of a number on `w` bytes. -/
def beBytes (w n : Nat) : List Nat :=
  match w with
  | 0 => []
  | Nat.succ w => beBytes w (n / 256) ++ [n % 256]

/-- SHA-256 padding: a 0x80 byte, zero bytes to 56 mod 64, then the bit
length on eight big-endian bytes. -/
def shaPad (msg : List Nat) : List Nat :=
  let L := msg.length
  msg ++ [128] ++ List.replicate ((64 - (L + 9) % 64) % 64) 0 ++ beBytes 8 (8 * L)

/-- Grouping of a byte list into big-endian 32-bit words. -/
def bytesToWords : List Nat → List Nat
  | b0 :: b1 :: b2 :: b3 :: rest =>
      (((b0 * 256 + b1) * 256 + b2) * 256 + b3) :: bytesToWords rest
  | _ => []

/-- Grouping of a word list into 16-word blocks. -/
def wordsToBlocks : List Nat → List (List Nat)
  | [] => []
  | w :: ws => (w :: ws.take 15) :: wordsToBlocks (ws.drop 15)
termination_by ws => ws.length
decreasing_by simp; omega

/-- Hexadecimal SHA-256 digest of a byte list (`hashlib.sha256(...).hexdigest()`). -/
def sha256Hex (msg : List Nat) : String :=
  let hs := (wordsToBlocks (bytesToWords (shaPad msg))).foldl shaBlock shaH0
  String.join (hs.map (hexPad 8))

/-- Embedding of `get_remote_json_hash` (extractor.py:23-34): hexadecimal
SHA-256 of the UTF-8 bytes of the canonical (`sort_keys=True`) serialization
of the payload. -/
def get_remote_json_hash (json_content : Json) : String :=
  sha256Hex (utf8Encode (dumps json_content))

/-! Embedding of `utils.py`. -/

/-- Embedding of `posixpath.join` on two components, as used by
`os.path.join`. -/
def pyJoin (a b : String) : String :=
  if b.data.head? = some '/' then b
  else if a = "" ∨ a.data.getLast? = some '/' then a ++ b
  else a ++ "/" ++ b

/-- Embedding of `get_date_path_directories` (utils.py:4-18):
`os.path.join(base_path, f"year=\x7byear\x7d", f"month=\x7bmonth\x7d", f"day=\x7bday\x7d")`. -/
def get_date_path_directories (base_path : String) (year month day : Nat) : String :=
  pyJoin (pyJoin (pyJoin base_path ("year=" ++ toString year))
    ("month=" ++ toString month)) ("day=" ++ toString day)

/-! Embedding of `config.py`. -/

/-- Embedding of the `HTTPConfigs` dataclass (config.py:4-18) with its
defaults. -/
structure HTTPConfigs where
  max_concurrent_requests : Nat := 5
  retries : Nat := 5
  delay : Int := 3
  backoff : Int := 3
deriving DecidableEq, Repr

/-- The module-level `http_configs = HTTPConfigs()` instance (config.py:21). -/
def http_configs : HTTPConfigs := {}

/-! Embedding of `get_http_response` (extractor.py:56-88) and
`exceptions.py`. -/

/-- Match of `needle` against the start of `hay`. -/
def subAt : List Char → List Char → Bool
  | [], _ => true
  | _ :: _, [] => false
  | c :: cs, d :: ds => c == d && subAt cs ds

/-- Substring containment on character lists. -/
def hasSub (needle : List Char) : List Char → Bool
  | [] => needle.isEmpty
  | d :: ds => subAt needle (d :: ds) || hasSub needle ds

/-- Python's `needle in hay` test on strings, as used by
`"HTTP Error: 429" in str(e)` at extractor.py:77. -/
def strIn (needle hay : String) : Bool :=
  hasSub needle.data hay.data

/-- Outcome of one `session.get(url)` round followed by `check_response`
(extractor.py:72-74): a 200 response carrying a JSON body; a non-200 status,
which `check_response` (extractor.py:37-53) raises as a `ClientResponseError`
whose rendered message contains `"HTTP Error: \x7bstatus\x7d"`; or a
transport-level `ClientError` whose rendered message is `msg`. -/
inductive AttemptOutcome where
  | ok (body : Json)
  | status (code : Nat)
  | transport (msg : String)

/-- Errors raised out of `get_http_response`: a re-raised
`ClientResponseError`, a re-raised transport `ClientError`, or
`MaximumRetryException` (exceptions.py:4-14, itself a `ClientError`
subclass), each carrying its message. -/
inductive FetchErr where
  | clientResponse (msg : String)
  | clientTransport (msg : String)
  | maxRetries (msg : String)
deriving DecidableEq, Repr

/-- Trace of one `get_http_response` call: returned value or raised error,
number of HTTP attempts performed, and the `asyncio.sleep` durations in
order. -/
structure FetchTrace where
  result : Except FetchErr Json
  attempts : Nat
  sleeps : List ℚ

/-- Retry loop of `get_http_response` (extractor.py:70-88).  `outcomes k`
is the result of the HTTP attempt with 0-based index `k`; `jitter k` is
the value drawn by `random.uniform(0, init_delay)` on that attempt; `fuel`
is the number of loop iterations left, `init_delay` the current delay.
The single `except ClientError` branch of the source tests
`"HTTP Error: 429" in str(e)`; the embedding applies that test to the
message of either error form. -/
def fetchGo (backoff : ℚ) (url : String) (outcomes : Nat → AttemptOutcome)
    (jitter : Nat → ℚ) : Nat → Nat → ℚ → List ℚ → FetchTrace
  | 0, attempt, _, sleeps =>
      { result := Except.error
          (FetchErr.maxRetries ("Max retries reached for URL: " ++ url)),
        attempts := attempt, sleeps := sleeps }
  | Nat.succ fuel, attempt, init_delay, sleeps =>
      match outcomes attempt with
      | AttemptOutcome.ok body =>
          { result := Except.ok body, attempts := attempt + 1, sleeps := sleeps }
      | AttemptOutcome.status code =>
          let msg := "HTTP Error: " ++ toString code
          if strIn "HTTP Error: 429" msg then
            fetchGo backoff url outcomes jitter fuel (attempt + 1)
              (init_delay * backoff) (sleeps ++ [init_delay + jitter attempt])
          else
            { result := Except.error (FetchErr.clientResponse msg),
              attempts := attempt + 1, sleeps := sleeps }
      | AttemptOutcome.transport msg =>
          if strIn "HTTP Error: 429" msg then
            fetchGo backoff url outcomes jitter fuel (attempt + 1)
              (init_delay * backoff) (sleeps ++ [init_delay + jitter attempt])
          else
            { result := Except.error (FetchErr.clientTransport msg),
              attempts := attempt + 1, sleeps := sleeps }

/-- Embedding of `get_http_response`: run the loop for `cfg.retries`
iterations starting from `init_delay = cfg.delay`. -/
def get_http_response (cfg : HTTPConfigs) (url : String)
    (outcomes : Nat → AttemptOutcome) (jitter : Nat → ℚ) : FetchTrace :=
  fetchGo (cfg.backoff : ℚ) url outcomes jitter cfg.retries 0 (cfg.delay : ℚ) []

/-! Embedding of `process_date` (extractor.py:149-232). -/

/-- Python exception classes relevant to `process_date`, discriminated the
way its `except` clauses discriminate them.  All of them derive from
`Exception`. -/
inductive PyErr where
  | clientError (msg : String)
  | postgresError (msg : String)
  | valueError (msg : String)
  | osError (msg : String)
  | typeError (msg : String)
deriving DecidableEq, Repr

/-- Membership in the `aiohttp.ClientError` class (which includes
`MaximumRetryException`). -/
def PyErr.isClientError : PyErr → Bool
  | PyErr.clientError _ => true
  | _ => false

/-- Membership in the `asyncpg.exceptions.PostgresError` class. -/
def PyErr.isPostgresError : PyErr → Bool
  | PyErr.postgresError _ => true
  | _ => false

/-- Metadata-store statement executed by `process_date`. -/
inductive WriteOp where
  | insert (d : PyDate) (hash : String)
  | update (d : PyDate) (hash : String)
deriving DecidableEq, Repr

/-- Environment of one `process_date` call: the outcome of every external
interaction, in program order.  A field is only consulted if control flow
reaches the corresponding statement. -/
structure ProcEnv where
  fetch : Except PyErr Unit
  body : Except PyErr Json
  acquire : Except PyErr Unit
  lookup : Except PyErr (Option String)
  write : Except PyErr Unit
  makedirs : Except PyErr Unit
  fileWrite : Except PyErr Unit

instance {ε α : Type} [DecidableEq ε] [DecidableEq α] :
    DecidableEq (Except ε α) := fun x y =>
  match x, y with
  | Except.ok a, Except.ok b =>
      if h : a = b then isTrue (by rw [h])
      else isFalse (by intro hc; cases hc; exact h rfl)
  | Except.ok _, Except.error _ => isFalse (by intro hc; cases hc)
  | Except.error _, Except.ok _ => isFalse (by intro hc; cases hc)
  | Except.error a, Except.error b =>
      if h : a = b then isTrue (by rw [h])
      else isFalse (by intro hc; cases hc; exact h rfl)

/-- Observable outcome of one `process_date` call: the returned mapping
(or the exception it raises), the metadata write that committed, and the
path of the staged file if one was fully written. -/
structure ProcResult where
  result : Except PyErr (List (PyDate × String))
  storeWrite : Option WriteOp
  fileWritten : Option String
deriving DecidableEq, Repr

/-- Staging tail of `process_date` (extractor.py:208-232): build the
date-partitioned path, `os.makedirs` (outside any `try`, so its failure
propagates), then write `file.json` under handlers for `TypeError` and
`Exception` (so no write failure propagates). -/
def stageFile (env : ProcEnv) (particular_date : PyDate) (raw_data_dir : String)
    (storeWrite : Option WriteOp) : ProcResult :=
  match env.makedirs with
  | Except.error e => ⟨Except.error e, storeWrite, none⟩
  | Except.ok _ =>
    let path_to_json_file := pyJoin (get_date_path_directories raw_data_dir
      particular_date.year particular_date.month particular_date.day) "file.json"
    match env.fileWrite with
    | Except.error _ => ⟨Except.ok [], storeWrite, none⟩
    | Except.ok _ =>
        ⟨Except.ok [(particular_date, path_to_json_file)], storeWrite,
          some path_to_json_file⟩

/-- Embedding of `process_date` (extractor.py:149-232).  `raw_data_dir` is
the value of the `RAW_DATA_DIR` environment variable.  Control flow mirrors
the source: only `ClientError` is caught around fetch and `response.json()`
(extractor.py:176); only `PostgresError` is caught around the metadata
statements; the handler of a failed UPDATE/INSERT (extractor.py:204-206)
only logs — it does not return — so execution falls through to the staging
step; `pool.acquire()` is under no handler, so its failure propagates. -/
def process_date (env : ProcEnv) (particular_date : PyDate)
    (raw_data_dir : String) : ProcResult :=
  match env.fetch with
  | Except.error e =>
      if e.isClientError then ⟨Except.ok [], none, none⟩
      else ⟨Except.error e, none, none⟩
  | Except.ok _ =>
  match env.body with
  | Except.error e =>
      if e.isClientError then ⟨Except.ok [], none, none⟩
      else ⟨Except.error e, none, none⟩
  | Except.ok json_data =>
    let remote_hash := get_remote_json_hash json_data
    match env.acquire with
    | Except.error e => ⟨Except.error e, none, none⟩
    | Except.ok _ =>
    match env.lookup with
    | Except.error e =>
        if e.isPostgresError then ⟨Except.ok [], none, none⟩
        else ⟨Except.error e, none, none⟩
    | Except.ok record =>
      if record = some remote_hash then ⟨Except.ok [], none, none⟩
      else
        let wop := match record with
          | some _ => WriteOp.update particular_date remote_hash
          | none => WriteOp.insert particular_date remote_hash
        match env.write with
        | Except.error e =>
            if e.isPostgresError then
              stageFile env particular_date raw_data_dir none
            else ⟨Except.error e, none, none⟩
        | Except.ok _ => stageFile env particular_date raw_data_dir (some wop)

/-! Embedding of `extract` (extractor.py:91-146). -/

/-- Embedding of `extract` with the per-date tasks abstracted as
`per_date` (a task's value is the dictionary `process_date` returned, its
error the exception it raised).  `pool_connect` is the outcome of
`asyncpg.create_pool` (extractor.py:117-129), whose failure is logged and
re-raised.  `asyncio.gather(..., return_exceptions=True)` (extractor.py:140)
delivers every task's outcome without cancelling siblings, and only results
that are dicts are merged into the answer (extractor.py:141-143). -/
def extract (pool_connect : Except PyErr Unit) (all_dates : List PyDate)
    (per_date : PyDate → Except PyErr (List (PyDate × String))) :
    Except PyErr (List (PyDate × String)) :=
  match pool_connect with
  | Except.error e => Except.error e
  | Except.ok _ =>
      Except.ok (all_dates.foldl (fun acc d =>
        match per_date d with
        | Except.ok kvs => acc ++ kvs
        | Except.error _ => acc) [])

/-! Helper lemmas about decimal numerals, used for the staging-path layout. -/

theorem digitChar_isDigit : ∀ m : Nat, m < 10 → (Nat.digitChar m).isDigit = true := by
  decide

theorem toDigitsCore_all_digits (f : Nat) :
    ∀ (n : Nat) (acc : List Char) (c : Char),
      c ∈ Nat.toDigitsCore 10 f n acc → c ∈ acc ∨ c.isDigit = true := by
  induction f with
  | zero => intro n acc c h; exact Or.inl h
  | succ f ih =>
      intro n acc c h
      simp only [Nat.toDigitsCore] at h
      by_cases h10 : n / 10 = 0
      · rw [if_pos h10] at h
        rcases List.mem_cons.mp h with h1 | h2
        · exact Or.inr (h1 ▸ digitChar_isDigit (n % 10)
            (Nat.mod_lt n (by decide)))
        · exact Or.inl h2
      · rw [if_neg h10] at h
        rcases ih (n / 10) (Nat.digitChar (n % 10) :: acc) c h with h1 | h2
        · rcases List.mem_cons.mp h1 with h3 | h4
          · exact Or.inr (h3 ▸ digitChar_isDigit (n % 10)
              (Nat.mod_lt n (by decide)))
          · exact Or.inl h4
        · exact Or.inr h2

theorem toDigitsCore_ne_nil_of_acc (f : Nat) :
    ∀ (n : Nat) (acc : List Char), acc ≠ [] → Nat.toDigitsCore 10 f n acc ≠ [] := by
  induction f with
  | zero => intro n acc h; simpa [Nat.toDigitsCore] using h
  | succ f ih =>
      intro n acc h
      simp only [Nat.toDigitsCore]
      by_cases h10 : n / 10 = 0
      · rw [if_pos h10]; simp
      · rw [if_neg h10]; exact ih _ _ (by simp)

theorem repr_data_ne_nil (n : Nat) : (Nat.repr n).data ≠ [] := by
  show Nat.toDigitsCore 10 (n + 1) n [] ≠ []
  simp only [Nat.toDigitsCore]
  by_cases h10 : n / 10 = 0
  · rw [if_pos h10]; simp
  · rw [if_neg h10]; exact toDigitsCore_ne_nil_of_acc _ _ _ (by simp)

theorem repr_getLast_ne_slash (n : Nat) : (Nat.repr n).data.getLast? ≠ some '/' := by
  intro h
  have hm : '/' ∈ (Nat.repr n).data := List.mem_of_mem_getLast? h
  rcases toDigitsCore_all_digits (n + 1) n [] '/' hm with h1 | h2
  · exact absurd h1 (by simp)
  · exact absurd h2 (by decide)

theorem pyJoin_eq (a b : String) (ha : a.data ≠ [])
    (ha2 : a.data.getLast? ≠ some '/') (hb : b.data.head? ≠ some '/') :
    pyJoin a b = a ++ "/" ++ b := by
  unfold pyJoin
  rw [if_neg hb, if_neg]
  intro h
  rcases h with h1 | h2
  · exact ha (by rw [h1])
  · exact ha2 h2

theorem head_append_lit (pre : String) (c : Char) (s : String)
    (h : pre.data.head? = some c) : (pre ++ s).data.head? = some c := by
  rw [String.data_append, List.head?_append, h]
  rfl

theorem chunk_good (pre : String) (n : Nat) :
    (pre ++ toString n).data ≠ [] ∧
      (pre ++ toString n).data.getLast? ≠ some '/' := by
  constructor
  · rw [String.data_append]
    intro hh
    exact repr_data_ne_nil n (List.append_eq_nil.mp hh).2
  · rw [String.data_append,
      List.getLast?_append_of_ne_nil _
        (show (toString n).data ≠ [] from repr_data_ne_nil n)]
    exact repr_getLast_ne_slash n

theorem append_good (a b : String) (hb1 : b.data ≠ [])
    (hb2 : b.data.getLast? ≠ some '/') :
    (a ++ b).data ≠ [] ∧ (a ++ b).data.getLast? ≠ some '/' := by
  rw [String.data_append]
  exact ⟨fun hh => hb1 (List.append_eq_nil.mp hh).2,
    by rw [List.getLast?_append_of_ne_nil _ hb1]; exact hb2⟩

/-- C9: for every date (year Y, month M, day D) and base directory that is
nonempty and does not end in a path separator, the staged-file path that
`process_date` builds from `get_date_path_directories` is exactly
`baseDir/year=Y/month=M/day=D/file.json` with Y, M, D written as unpadded
decimal numerals (`toString`). -/
theorem staged_path_layout (base : String) (y m d : Nat)
    (h1 : base ≠ "") (h2 : base.data.getLast? ≠ some '/') :
    pyJoin (get_date_path_directories base y m d) "file.json" =
      base ++ "/year=" ++ toString y ++ "/month=" ++ toString m ++
        "/day=" ++ toString d ++ "/file.json" := by
  have hbase : base.data ≠ [] := fun hh => h1 (String.ext hh)
  have gy := chunk_good "year=" y
  have gm := chunk_good "month=" m
  have gd := chunk_good "day=" d
  have step1 : pyJoin base ("year=" ++ toString y) =
      base ++ "/" ++ ("year=" ++ toString y) :=
    pyJoin_eq _ _ hbase h2
      (by rw [head_append_lit "year=" 'y' _ rfl]; decide)
  have g1 := append_good (base ++ "/") ("year=" ++ toString y) gy.1 gy.2
  have step2 : pyJoin (base ++ "/" ++ ("year=" ++ toString y))
      ("month=" ++ toString m) =
      base ++ "/" ++ ("year=" ++ toString y) ++ "/" ++ ("month=" ++ toString m) :=
    pyJoin_eq _ _ g1.1 g1.2
      (by rw [head_append_lit "month=" 'm' _ rfl]; decide)
  have g2 := append_good (base ++ "/" ++ ("year=" ++ toString y) ++ "/")
    ("month=" ++ toString m) gm.1 gm.2
  have step3 : pyJoin
      (base ++ "/" ++ ("year=" ++ toString y) ++ "/" ++ ("month=" ++ toString m))
      ("day=" ++ toString d) =
      base ++ "/" ++ ("year=" ++ toString y) ++ "/" ++ ("month=" ++ toString m) ++
        "/" ++ ("day=" ++ toString d) :=
    pyJoin_eq _ _ g2.1 g2.2
      (by rw [head_append_lit "day=" 'd' _ rfl]; decide)
  have g3 := append_good
    (base ++ "/" ++ ("year=" ++ toString y) ++ "/" ++ ("month=" ++ toString m) ++ "/")
    ("day=" ++ toString d) gd.1 gd.2
  have step4 : pyJoin
      (base ++ "/" ++ ("year=" ++ toString y) ++ "/" ++ ("month=" ++ toString m) ++
        "/" ++ ("day=" ++ toString d)) "file.json" =
      base ++ "/" ++ ("year=" ++ toString y) ++ "/" ++ ("month=" ++ toString m) ++
        "/" ++ ("day=" ++ toString d) ++ "/" ++ "file.json" :=
    pyJoin_eq _ _ g3.1 g3.2
      (by rw [(rfl : ("file.json" : String).data.head? = some 'f')]; decide)
  unfold get_date_path_directories
  rw [step1, step2, step3, step4]
  apply String.ext
  simp [String.data_append, List.append_assoc]

/-- C1: the spec states that a metadata-store failure on lookup, INSERT or
UPDATE makes `process_date` log and return absent without staging a file.
The code honours this only for the lookup (extractor.py:188-191); the
handler of a failed INSERT/UPDATE (extractor.py:204-206) only logs and does
not return, so execution falls through: the file IS staged and the date IS
present in the returned mapping.  This theorem evaluates the embedding at
such an input: the fetch succeeded, no record exists, the INSERT raises
`PostgresError`, and nevertheless `file.json` is written and returned while
no metadata write committed. -/
theorem process_date_insert_fault_still_stages :
    process_date
      { fetch := Except.ok (), body := Except.ok Json.null,
        acquire := Except.ok (), lookup := Except.ok none,
        write := Except.error (PyErr.postgresError "insert failed"),
        makedirs := Except.ok (), fileWrite := Except.ok () }
      ⟨2024, 3, 5⟩ "/data" =
    { result := Except.ok
        [(⟨2024, 3, 5⟩, "/data/year=2024/month=3/day=5/file.json")],
      storeWrite := none,
      fileWritten := some "/data/year=2024/month=3/day=5/file.json" } := by
  rfl

/-- C5: the change-detection policy of `process_date` on the fault-free
path, for every payload `p` and stored record state `r`: no record means
INSERT of the new fingerprint plus staging the file; a record with an equal
fingerprint means a no-op (no store write, no file, date absent); a record
with a different fingerprint means UPDATE to the new fingerprint plus
staging exactly one file for that date. -/
theorem process_date_change_detection (p : Json) (r : Option String)
    (d : PyDate) (dir : String) :
    process_date
      { fetch := Except.ok (), body := Except.ok p, acquire := Except.ok (),
        lookup := Except.ok r, write := Except.ok (),
        makedirs := Except.ok (), fileWrite := Except.ok () } d dir =
      (let fp := get_remote_json_hash p
       let path := pyJoin (get_date_path_directories dir d.year d.month d.day)
         "file.json"
       match r with
       | none =>
           { result := Except.ok [(d, path)],
             storeWrite := some (WriteOp.insert d fp),
             fileWritten := some path }
       | some h =>
           if h = fp then
             { result := Except.ok [], storeWrite := none, fileWritten := none }
           else
             { result := Except.ok [(d, path)],
               storeWrite := some (WriteOp.update d fp),
               fileWritten := some path }) := by
  cases r with
  | none => rfl
  | some h =>
      by_cases hh : h = get_remote_json_hash p
      · simp [process_date, stageFile, hh]
      · simp [process_date, stageFile, hh]

/-- C2 counterexample: an `OSError` raised by `os.makedirs`
(extractor.py:215, outside every `try` block of `process_date`) propagates
to the caller instead of being converted to the absent result, refuting
the claim that `process_date` never raises for every input. -/
theorem process_date_makedirs_fault_raises :
    (process_date
      { fetch := Except.ok (), body := Except.ok Json.null,
        acquire := Except.ok (), lookup := Except.ok none,
        write := Except.ok (),
        makedirs := Except.error (PyErr.osError "Permission denied"),
        fileWrite := Except.ok () }
      ⟨2024, 3, 5⟩ "/data").result =
    Except.error (PyErr.osError "Permission denied") := by
  rfl

/-- C2 amended: every fault raised at a step `process_date` guards with a
handler — a `ClientError` from the fetch or from `response.json()`, a
`PostgresError` from the metadata lookup or write, any error from the JSON
file write — is caught and converted to a returned mapping, never raised
to the caller; faults outside those handlers (pool acquisition,
`os.makedirs`, a non-`ClientError` body-decode error, a non-`PostgresError`
store error) are not covered and propagate. -/
theorem process_date_absorbs_handled_faults (env : ProcEnv) (d : PyDate)
    (dir : String)
    (hf : ∀ e, env.fetch = Except.error e → e.isClientError = true)
    (hb : ∀ e, env.body = Except.error e → e.isClientError = true)
    (ha : env.acquire.isOk = true)
    (hl : ∀ e, env.lookup = Except.error e → e.isPostgresError = true)
    (hw : ∀ e, env.write = Except.error e → e.isPostgresError = true)
    (hm : env.makedirs.isOk = true) :
    (process_date env d dir).result.isOk = true := by
  obtain ⟨f, b, a, l, w, m, fw⟩ := env
  simp only at hf hb ha hl hw hm
  cases f with
  | error e => simp [process_date, hf e rfl, Except.isOk, Except.toBool]
  | ok uf =>
    cases uf
    cases b with
    | error e => simp [process_date, hb e rfl, Except.isOk, Except.toBool]
    | ok p =>
      cases a with
      | error e => simp [Except.isOk, Except.toBool] at ha
      | ok ua =>
        cases ua
        cases l with
        | error e => simp [process_date, hl e rfl, Except.isOk, Except.toBool]
        | ok r =>
          cases m with
          | error e => simp [Except.isOk, Except.toBool] at hm
          | ok um =>
            cases um
            by_cases hr : r = some (get_remote_json_hash p)
            · simp [process_date, hr, Except.isOk, Except.toBool]
            · cases w with
              | error e =>
                  cases fw with
                  | error e2 =>
                      simp [process_date, hr, hw e rfl, stageFile,
                        Except.isOk, Except.toBool]
                  | ok ufw =>
                      cases ufw
                      simp [process_date, hr, hw e rfl, stageFile,
                        Except.isOk, Except.toBool]
              | ok uw =>
                  cases uw
                  cases fw with
                  | error e2 =>
                      simp [process_date, hr, stageFile,
                        Except.isOk, Except.toBool]
                  | ok ufw =>
                      cases ufw
                      simp [process_date, hr, stageFile,
                        Except.isOk, Except.toBool]

/-- Witness for the amended C2 theorem: a concrete call where the metadata
lookup raises `PostgresError` and `process_date` still returns a mapping. -/
theorem process_date_absorbs_handled_faults_witness :
    (process_date
      { fetch := Except.ok (), body := Except.ok Json.null,
        acquire := Except.ok (),
        lookup := Except.error (PyErr.postgresError "connection reset"),
        write := Except.ok (), makedirs := Except.ok (),
        fileWrite := Except.ok () }
      ⟨2024, 3, 5⟩ "/data").result.isOk = true :=
  process_date_absorbs_handled_faults _ _ _
    (fun _ he => nomatch he) (fun _ he => nomatch he) rfl
    (fun _ he => by cases he; rfl) (fun _ he => nomatch he) rfl

/-- Collapsing of one gathered task outcome the way `extract` merges it: a
returned dict is merged, a raised exception contributes nothing. -/
def gatherOk (r : Except PyErr (List (PyDate × String))) :
    List (PyDate × String) :=
  match r with
  | Except.ok kvs => kvs
  | Except.error _ => []

theorem extract_foldl_gather
    (per_date : PyDate → Except PyErr (List (PyDate × String))) :
    ∀ (l : List PyDate) (acc : List (PyDate × String)),
      l.foldl (fun acc d => match per_date d with
        | Except.ok kvs => acc ++ kvs
        | Except.error _ => acc) acc =
      acc ++ l.flatMap (fun d => gatherOk (per_date d)) := by
  intro l
  induction l with
  | nil => intro acc; simp
  | cons d l ih =>
      intro acc
      rw [List.foldl_cons, List.flatMap_cons, ih]
      cases hpd : per_date d <;> simp [gatherOk, hpd, List.append_assoc]

/-- C6: with the store pool connected, `extract` always returns — instead
of raising — the merge, in date order, of exactly the successful per-date
results: a date whose task returned a staged mapping contributes it, a date
whose task raised or returned the empty mapping is simply absent, and a
raising task does not disturb the results of its siblings. -/
theorem extract_gathers_successes (dates : List PyDate)
    (per_date : PyDate → Except PyErr (List (PyDate × String))) :
    extract (Except.ok ()) dates per_date =
      Except.ok (dates.flatMap (fun d => gatherOk (per_date d))) := by
  unfold extract
  rw [extract_foldl_gather]
  simp

/-! Helper lemmas for the retry loop. -/

set_option maxRecDepth 10000 in
set_option maxHeartbeats 2000000 in
theorem strIn_429_status : ∀ c : Nat, c < 1000 →
    (strIn "HTTP Error: 429" ("HTTP Error: " ++ toString c) =
      decide (c = 429)) := by
  decide

theorem fetchGo_all_429 (backoff : ℚ) (url : String)
    (outcomes : Nat → AttemptOutcome) (jitter : Nat → ℚ) :
    ∀ (fuel attempt : Nat) (d : ℚ) (sleeps : List ℚ),
      (∀ i, attempt ≤ i → i < attempt + fuel →
        outcomes i = AttemptOutcome.status 429) →
      fetchGo backoff url outcomes jitter fuel attempt d sleeps =
        { result := Except.error
            (FetchErr.maxRetries ("Max retries reached for URL: " ++ url)),
          attempts := attempt + fuel,
          sleeps := sleeps ++ List.ofFn
            (fun k : Fin fuel => d * backoff ^ (k : Nat) + jitter (attempt + k)) } := by
  intro fuel
  induction fuel with
  | zero => intro attempt d sleeps h; simp [fetchGo]
  | succ fuel ih =>
      intro attempt d sleeps h
      have h0 : outcomes attempt = AttemptOutcome.status 429 :=
        h attempt (Nat.le_refl _) (by omega)
      simp only [fetchGo, h0]
      rw [if_pos (by decide)]
      rw [ih (attempt + 1) (d * backoff) (sleeps ++ [d + jitter attempt])
        (fun i h1 h2 => h i (by omega) (by omega))]
      simp only [FetchTrace.mk.injEq, true_and]
      refine ⟨by omega, ?_⟩
      rw [List.append_assoc, List.ofFn_succ, List.singleton_append]
      congr 1
      congr 1
      · simp
      · congr 1
        funext k
        simp only [Fin.val_succ]
        rw [show attempt + 1 + (k : Nat) = attempt + ((k : Nat) + 1) from by omega,
          pow_succ]
        ring

theorem fetchGo_429_then_ok (backoff : ℚ) (url : String)
    (outcomes : Nat → AttemptOutcome) (jitter : Nat → ℚ) (body : Json) :
    ∀ (m fuel attempt : Nat) (d : ℚ) (sleeps : List ℚ),
      m < fuel →
      (∀ i, i < m → outcomes (attempt + i) = AttemptOutcome.status 429) →
      outcomes (attempt + m) = AttemptOutcome.ok body →
      fetchGo backoff url outcomes jitter fuel attempt d sleeps =
        { result := Except.ok body,
          attempts := attempt + m + 1,
          sleeps := sleeps ++ List.ofFn
            (fun k : Fin m => d * backoff ^ (k : Nat) + jitter (attempt + k)) } := by
  intro m
  induction m with
  | zero =>
      intro fuel attempt d sleeps hm h429 hok
      obtain ⟨f, rfl⟩ : ∃ f, fuel = f + 1 := ⟨fuel - 1, by omega⟩
      have hok0 : outcomes attempt = AttemptOutcome.ok body := by
        simpa using hok
      simp [fetchGo, hok0]
  | succ m ih =>
      intro fuel attempt d sleeps hm h429 hok
      obtain ⟨f, rfl⟩ : ∃ f, fuel = f + 1 := ⟨fuel - 1, by omega⟩
      have h0 : outcomes attempt = AttemptOutcome.status 429 := by
        simpa using h429 0 (by omega)
      simp only [fetchGo, h0]
      rw [if_pos (by decide)]
      rw [ih f (attempt + 1) (d * backoff) (sleeps ++ [d + jitter attempt])
        (by omega)
        (fun i hi => by
          rw [show attempt + 1 + i = attempt + (i + 1) from by omega]
          exact h429 (i + 1) (by omega))
        (by rw [show attempt + 1 + m = attempt + (m + 1) from by omega]; exact hok)]
      simp only [FetchTrace.mk.injEq, true_and]
      refine ⟨by omega, ?_⟩
      rw [List.append_assoc, List.ofFn_succ, List.singleton_append]
      congr 1
      congr 1
      · simp
      · congr 1
        funext k
        simp only [Fin.val_succ]
        rw [show attempt + 1 + (k : Nat) = attempt + ((k : Nat) + 1) from by omega,
          pow_succ]
        ring

/-- C3: in `get_http_response`, only a rate-limit outcome triggers a retry:
a first attempt that yields any HTTP error status other than 429 — or a
transport `ClientError` whose message does not carry the rate-limit marker
the code substring-matches on — is re-raised at once, with exactly one
HTTP attempt, zero retries and zero backoff sleeps. -/
theorem fetch_non_429_terminal (cfg : HTTPConfigs) (url : String)
    (outcomes : Nat → AttemptOutcome) (jitter : Nat → ℚ)
    (hr : 1 ≤ cfg.retries) :
    (∀ c, outcomes 0 = AttemptOutcome.status c → c ≤ 999 → c ≠ 429 →
      get_http_response cfg url outcomes jitter =
        { result := Except.error
            (FetchErr.clientResponse ("HTTP Error: " ++ toString c)),
          attempts := 1, sleeps := [] }) ∧
    (∀ msg, outcomes 0 = AttemptOutcome.transport msg →
      strIn "HTTP Error: 429" msg = false →
      get_http_response cfg url outcomes jitter =
        { result := Except.error (FetchErr.clientTransport msg),
          attempts := 1, sleeps := [] }) := by
  obtain ⟨r, hrr⟩ : ∃ r, cfg.retries = r + 1 := ⟨cfg.retries - 1, by omega⟩
  unfold get_http_response
  rw [hrr]
  constructor
  · intro c h0 hle hne
    simp only [fetchGo, h0]
    rw [if_neg]
    rw [strIn_429_status c (by omega)]
    simp [hne]
  · intro msg h0 hfalse
    simp only [fetchGo, h0]
    rw [if_neg]
    simp [hfalse]

/-- Witness for C3: a 500 on the first attempt gives one attempt, no sleeps
and the re-raised response error. -/
theorem fetch_non_429_terminal_witness :
    1 ≤ http_configs.retries ∧
    get_http_response http_configs "https://api.test/x"
        (fun _ => AttemptOutcome.status 500) (fun _ => 0) =
      { result := Except.error
          (FetchErr.clientResponse ("HTTP Error: " ++ toString 500)),
        attempts := 1, sleeps := [] } :=
  ⟨by decide,
    (fetch_non_429_terminal http_configs "https://api.test/x"
      (fun _ => AttemptOutcome.status 500) (fun _ => 0) (by decide)).1
      500 rfl (by decide) (by decide)⟩

theorem fetch_all_429_trace (cfg : HTTPConfigs) (url : String)
    (outcomes : Nat → AttemptOutcome) (jitter : Nat → ℚ)
    (h : ∀ i, i < cfg.retries → outcomes i = AttemptOutcome.status 429) :
    get_http_response cfg url outcomes jitter =
      { result := Except.error
          (FetchErr.maxRetries ("Max retries reached for URL: " ++ url)),
        attempts := cfg.retries,
        sleeps := List.ofFn (fun k : Fin cfg.retries =>
          (cfg.delay : ℚ) * (cfg.backoff : ℚ) ^ (k : Nat) + jitter k) } := by
  unfold get_http_response
  rw [fetchGo_all_429 (cfg.backoff : ℚ) url outcomes jitter cfg.retries 0
    (cfg.delay : ℚ) [] (fun i h1 h2 => h i (by omega))]
  simp

theorem getLast?_ofFn_succ {α : Type} (n : Nat) (f : Fin (n + 1) → α) :
    (List.ofFn f).getLast? = some (f ⟨n, by omega⟩) := by
  rw [List.getLast?_eq_getElem?, List.length_ofFn]
  simp only [Nat.add_sub_cancel]
  rw [List.getElem?_ofFn]
  simp [List.ofFnNthVal]

/-- C4: when every one of the `retries` attempts yields HTTP 429, the
fetcher performs exactly `retries` attempts and then raises
`MaximumRetryException` whose message names the URL. -/
theorem fetch_all_429_max_retries (cfg : HTTPConfigs) (url : String)
    (outcomes : Nat → AttemptOutcome) (jitter : Nat → ℚ)
    (h : ∀ i, i < cfg.retries → outcomes i = AttemptOutcome.status 429) :
    (get_http_response cfg url outcomes jitter).attempts = cfg.retries ∧
    (get_http_response cfg url outcomes jitter).result =
      Except.error
        (FetchErr.maxRetries ("Max retries reached for URL: " ++ url)) := by
  rw [fetch_all_429_trace cfg url outcomes jitter h]
  exact ⟨rfl, rfl⟩

/-- Witness for C4 with the default configuration and an all-429 remote. -/
theorem fetch_all_429_max_retries_witness :
    (∀ i, i < http_configs.retries →
      (fun _ : Nat => AttemptOutcome.status 429) i = AttemptOutcome.status 429) ∧
    (get_http_response http_configs "https://api.test/x"
        (fun _ => AttemptOutcome.status 429) (fun _ => 0)).attempts =
      http_configs.retries ∧
    (get_http_response http_configs "https://api.test/x"
        (fun _ => AttemptOutcome.status 429) (fun _ => 0)).result =
      Except.error (FetchErr.maxRetries
        ("Max retries reached for URL: " ++ "https://api.test/x")) :=
  ⟨fun _ _ => rfl,
    fetch_all_429_max_retries http_configs "https://api.test/x"
      (fun _ => AttemptOutcome.status 429) (fun _ => 0) (fun _ _ => rfl)⟩

/-- C10: when every attempt yields HTTP 429, the loop sleeps after every
attempt including the last one — `retries` sleeps in total, the k-th equal
to `delay * backoff^k` plus that attempt's jitter — so the final backoff
delay `delay * backoff^(retries-1) + jitter` is waited before
`MaximumRetryException` is raised, although no further attempt follows it. -/
theorem fetch_sleeps_after_last_attempt (cfg : HTTPConfigs) (url : String)
    (outcomes : Nat → AttemptOutcome) (jitter : Nat → ℚ)
    (hr : 1 ≤ cfg.retries)
    (h : ∀ i, i < cfg.retries → outcomes i = AttemptOutcome.status 429) :
    (get_http_response cfg url outcomes jitter).sleeps =
      List.ofFn (fun k : Fin cfg.retries =>
        (cfg.delay : ℚ) * (cfg.backoff : ℚ) ^ (k : Nat) + jitter k) ∧
    (get_http_response cfg url outcomes jitter).sleeps.length = cfg.retries ∧
    (get_http_response cfg url outcomes jitter).sleeps.getLast? =
      some ((cfg.delay : ℚ) * (cfg.backoff : ℚ) ^ (cfg.retries - 1) +
        jitter (cfg.retries - 1)) ∧
    (get_http_response cfg url outcomes jitter).result =
      Except.error
        (FetchErr.maxRetries ("Max retries reached for URL: " ++ url)) := by
  rw [fetch_all_429_trace cfg url outcomes jitter h]
  refine ⟨rfl, by simp, ?_, rfl⟩
  have hgen : ∀ (n : Nat), 1 ≤ n → ∀ g : Nat → ℚ,
      (List.ofFn (fun k : Fin n => g (k : Nat))).getLast? = some (g (n - 1)) := by
    intro n hn g
    obtain ⟨r, rfl⟩ : ∃ r, n = r + 1 := ⟨n - 1, by omega⟩
    rw [getLast?_ofFn_succ]
    simp
  exact hgen cfg.retries hr
    (fun x => (cfg.delay : ℚ) * (cfg.backoff : ℚ) ^ x + jitter x)

/-- Witness for C10 with the default configuration. -/
theorem fetch_sleeps_after_last_attempt_witness :
    1 ≤ http_configs.retries ∧
    (get_http_response http_configs "https://api.test/x"
        (fun _ => AttemptOutcome.status 429) (fun _ => 0)).sleeps.length =
      http_configs.retries ∧
    (get_http_response http_configs "https://api.test/x"
        (fun _ => AttemptOutcome.status 429) (fun _ => 0)).sleeps.getLast? =
      some ((http_configs.delay : ℚ) *
          (http_configs.backoff : ℚ) ^ (http_configs.retries - 1) + 0) :=
  ⟨by decide,
    (fetch_sleeps_after_last_attempt http_configs "https://api.test/x"
      (fun _ => AttemptOutcome.status 429) (fun _ => 0) (by decide)
      (fun _ _ => rfl)).2.1,
    (fetch_sleeps_after_last_attempt http_configs "https://api.test/x"
      (fun _ => AttemptOutcome.status 429) (fun _ => 0) (by decide)
      (fun _ _ => rfl)).2.2.1⟩

/-- C8: for a run of `m` rate-limited attempts followed by a success within
the retry budget, the k-th backoff sleep is exactly `delay * backoff^k`
plus the jitter drawn for that attempt (the draw lying in
`[0, delay * backoff^k)` as `random.uniform(0, init_delay)` guarantees),
and therefore the total waited time is at least the sum of the
deterministic components `delay * backoff^k` over all retried attempts. -/
theorem fetch_backoff_total_wait (cfg : HTTPConfigs) (url : String)
    (outcomes : Nat → AttemptOutcome) (jitter : Nat → ℚ) (m : Nat) (body : Json)
    (hm : m < cfg.retries)
    (h429 : ∀ i, i < m → outcomes i = AttemptOutcome.status 429)
    (hok : outcomes m = AttemptOutcome.ok body)
    (hjit : ∀ k, k < m → 0 ≤ jitter k ∧
      jitter k < (cfg.delay : ℚ) * (cfg.backoff : ℚ) ^ k) :
    (get_http_response cfg url outcomes jitter).result = Except.ok body ∧
    (get_http_response cfg url outcomes jitter).sleeps =
      List.ofFn (fun k : Fin m =>
        (cfg.delay : ℚ) * (cfg.backoff : ℚ) ^ (k : Nat) + jitter k) ∧
    (∑ k ∈ Finset.range m, (cfg.delay : ℚ) * (cfg.backoff : ℚ) ^ k) ≤
      (get_http_response cfg url outcomes jitter).sleeps.sum := by
  have htrace : get_http_response cfg url outcomes jitter =
      { result := Except.ok body, attempts := m + 1,
        sleeps := List.ofFn (fun k : Fin m =>
          (cfg.delay : ℚ) * (cfg.backoff : ℚ) ^ (k : Nat) + jitter k) } := by
    unfold get_http_response
    rw [fetchGo_429_then_ok (cfg.backoff : ℚ) url outcomes jitter body m
      cfg.retries 0 (cfg.delay : ℚ) [] hm
      (fun i hi => by simpa using h429 i hi) (by simpa using hok)]
    simp
  rw [htrace]
  refine ⟨rfl, rfl, ?_⟩
  show _ ≤ (List.ofFn (fun k : Fin m =>
    (cfg.delay : ℚ) * (cfg.backoff : ℚ) ^ (k : Nat) + jitter k)).sum
  rw [List.sum_ofFn]
  rw [Fin.sum_univ_eq_sum_range
    (fun k => (cfg.delay : ℚ) * (cfg.backoff : ℚ) ^ k + jitter k) m]
  rw [Finset.sum_add_distrib]
  have hj : 0 ≤ ∑ k ∈ Finset.range m, jitter k :=
    Finset.sum_nonneg (fun k hk => (hjit k (Finset.mem_range.mp hk)).1)
  linarith

/-- Witness for C8: two 429 responses then a 200 with the default
configuration and zero jitter draws. -/
theorem fetch_backoff_total_wait_witness :
    2 < http_configs.retries ∧
    (∑ k ∈ Finset.range 2,
        (http_configs.delay : ℚ) * (http_configs.backoff : ℚ) ^ k) ≤
      (get_http_response http_configs "https://api.test/x"
        (fun i => if i < 2 then AttemptOutcome.status 429
          else AttemptOutcome.ok Json.null) (fun _ => 0)).sleeps.sum :=
  ⟨by decide,
    (fetch_backoff_total_wait http_configs "https://api.test/x"
      (fun i => if i < 2 then AttemptOutcome.status 429
        else AttemptOutcome.ok Json.null) (fun _ => 0) 2 Json.null
      (by decide)
      (fun i hi => by simp [hi])
      (by simp)
      (fun k hk => by
        constructor
        · exact le_refl 0
        · show (0 : ℚ) < (http_configs.delay : ℚ) * (http_configs.backoff : ℚ) ^ k
          have hd : ((http_configs.delay : Int) : ℚ) = 3 := by norm_num [http_configs]
          have hb : ((http_configs.backoff : Int) : ℚ) = 3 := by norm_num [http_configs]
          rw [hd, hb]
          positivity)).2.2⟩

/-! Canonicalization invariance of the fingerprint (C7). -/

/-- One payload is a key reordering of another: atoms are equal, array
elements are reordered in place (JSON arrays are ordered), and object
entry lists have their values recursively reordered and are then permuted. -/
inductive ReorderOf : Json → Json → Prop where
  | null : ReorderOf Json.null Json.null
  | bool (b : Bool) : ReorderOf (Json.bool b) (Json.bool b)
  | num (n : Int) : ReorderOf (Json.num n) (Json.num n)
  | str (s : String) : ReorderOf (Json.str s) (Json.str s)
  | arrNil : ReorderOf (Json.arr []) (Json.arr [])
  | arrCons {x y : Json} {xs ys : List Json} (hx : ReorderOf x y)
      (hs : ReorderOf (Json.arr xs) (Json.arr ys)) :
      ReorderOf (Json.arr (x :: xs)) (Json.arr (y :: ys))
  | objNil : ReorderOf (Json.obj []) (Json.obj [])
  | objCons (k : String) {v w : Json} {kvs kws : List (String × Json)}
      (hv : ReorderOf v w) (hs : ReorderOf (Json.obj kvs) (Json.obj kws)) :
      ReorderOf (Json.obj ((k, v) :: kvs)) (Json.obj ((k, w) :: kws))
  | objPerm {kvs mid kws : List (String × Json)}
      (h : ReorderOf (Json.obj kvs) (Json.obj mid)) (hp : mid.Perm kws) :
      ReorderOf (Json.obj kvs) (Json.obj kws)

theorem dumpsItems_eq_map (kvs : List (String × Json)) :
    dumpsItems kvs = kvs.map (fun p => (p.1, dumps p.2)) := by
  induction kvs with
  | nil => rfl
  | cons p kvs ih => cases p; simp [dumpsItems, ih]

theorem nodupKeys_iff (l : List String) : nodupKeys l = true ↔ l.Nodup := by
  induction l with
  | nil => simp [nodupKeys]
  | cons k ks ih =>
      simp [nodupKeys, List.nodup_cons, ih, List.elem_iff]

theorem mergeSort_key_eq (l₁ l₂ : List (String × String))
    (hperm : l₁.Perm l₂) (hnd : (l₁.map Prod.fst).Nodup) :
    l₁.mergeSort itemLe = l₂.mergeSort itemLe := by
  have htrans : ∀ a b c : String × String,
      itemLe a b = true → itemLe b c = true → itemLe a c = true := by
    intro a b c hab hbc
    simp only [itemLe, decide_eq_true_eq] at hab hbc ⊢
    exact le_trans hab hbc
  have htotal : ∀ a b : String × String, (itemLe a b || itemLe b a) = true := by
    intro a b
    simp only [itemLe, Bool.or_eq_true, decide_eq_true_eq]
    exact le_total a.1 b.1
  have hp1 : (l₁.mergeSort itemLe).Perm (l₂.mergeSort itemLe) :=
    ((l₁.mergeSort_perm itemLe).trans hperm).trans (l₂.mergeSort_perm itemLe).symm
  have hstrict : ∀ l : List (String × String),
      List.Pairwise (fun a b => itemLe a b = true) l →
      ((l.map Prod.fst).Nodup) →
      List.Pairwise (fun a b : String × String => a.1 < b.1) l := by
    intro l hle hnd
    have hne : List.Pairwise (fun a b : String × String => a.1 ≠ b.1) l :=
      List.pairwise_map.mp hnd
    exact (hle.and hne).imp
      (fun {a b} hab =>
        lt_of_le_of_ne (by simpa [itemLe] using hab.1) hab.2)
  have hnd1 : ((l₁.mergeSort itemLe).map Prod.fst).Nodup :=
    (((l₁.mergeSort_perm itemLe).map Prod.fst).nodup_iff).mpr hnd
  have hnd2 : ((l₂.mergeSort itemLe).map Prod.fst).Nodup :=
    (((l₂.mergeSort_perm itemLe).map Prod.fst).nodup_iff).mpr
      (((hperm.map Prod.fst).nodup_iff).mp hnd)
  haveI : IsAntisymm (String × String) (fun a b => a.1 < b.1) :=
    ⟨fun a b h1 h2 => absurd (lt_trans h1 h2) (lt_irrefl _)⟩
  exact List.eq_of_perm_of_sorted hp1
    (hstrict _ (List.sorted_mergeSort htrans htotal l₁) hnd1)
    (hstrict _ (List.sorted_mergeSort htrans htotal l₂) hnd2)

theorem dumps_obj_of_perm (kvs kws : List (String × Json))
    (hperm : (dumpsItems kvs).Perm (dumpsItems kws))
    (hnd : nodupKeys (kvs.map Prod.fst) = true) :
    dumps (Json.obj kvs) = dumps (Json.obj kws) := by
  have hkeys : (dumpsItems kvs).map Prod.fst = kvs.map Prod.fst := by
    rw [dumpsItems_eq_map, List.map_map]
    rfl
  have hnd1 : ((dumpsItems kvs).map Prod.fst).Nodup := by
    rw [hkeys]
    exact (nodupKeys_iff _).mp hnd
  simp only [dumps]
  rw [mergeSort_key_eq _ _ hperm hnd1]

theorem reorder_dumpsAgree {j k : Json} (h : ReorderOf j k) :
    wfJson j = true →
      dumps j = dumps k ∧
      (∀ xs ys, j = Json.arr xs → k = Json.arr ys →
        dumpsList xs = dumpsList ys) ∧
      (∀ kvs kws, j = Json.obj kvs → k = Json.obj kws →
        (dumpsItems kvs).Perm (dumpsItems kws)) := by
  induction h with
  | null =>
      intro _
      refine ⟨rfl, ?_, ?_⟩
      · intro xs ys hja hk
        exact nomatch hja
      · intro kvs kws hja hk
        exact nomatch hja
  | bool b =>
      intro _
      refine ⟨rfl, ?_, ?_⟩
      · intro xs ys hja hk
        exact nomatch hja
      · intro kvs kws hja hk
        exact nomatch hja
  | num n =>
      intro _
      refine ⟨rfl, ?_, ?_⟩
      · intro xs ys hja hk
        exact nomatch hja
      · intro kvs kws hja hk
        exact nomatch hja
  | str s =>
      intro _
      refine ⟨rfl, ?_, ?_⟩
      · intro xs ys hja hk
        exact nomatch hja
      · intro kvs kws hja hk
        exact nomatch hja
  | arrNil =>
      intro _
      refine ⟨rfl, ?_, ?_⟩
      · intro xs ys hj hk
        injection hj with hj'
        injection hk with hk'
        subst hj'
        subst hk'
        rfl
      · intro kvs kws hja hk
        exact nomatch hja
  | @arrCons x y xs ys hx hs ihx ihs =>
      intro hw
      have hw' : wfJson x = true ∧ wfJsonList xs = true := by
        simpa [wfJson, wfJsonList, Bool.and_eq_true] using hw
      have dx : dumps x = dumps y := (ihx hw'.1).1
      have dxs : dumpsList xs = dumpsList ys :=
        (ihs (by simpa [wfJson] using hw'.2)).2.1 xs ys rfl rfl
      refine ⟨?_, ?_, ?_⟩
      · simp only [dumps, dumpsList]
        rw [dx, dxs]
      · intro xs' ys' hj hk
        injection hj with hj'
        injection hk with hk'
        subst hj'
        subst hk'
        simp only [dumpsList]
        rw [dx, dxs]
      · intro kvs kws hja hk
        exact nomatch hja
  | objNil =>
      intro _
      refine ⟨rfl, ?_, ?_⟩
      · intro xs ys hja hk
        exact nomatch hja
      · intro kvs kws hj hk
        injection hj with hj'
        injection hk with hk'
        subst hj'
        subst hk'
        exact List.Perm.refl _
  | @objCons k v w kvs kws hv hs ihv ihs =>
      intro hw
      have hwparts : nodupKeys (k :: kvs.map Prod.fst) = true ∧
          wfJson v = true ∧ wfJsonItems kvs = true := by
        simpa [wfJson, wfJsonItems, Bool.and_eq_true, and_assoc] using hw
      have hndtail : nodupKeys (kvs.map Prod.fst) = true := by
        have := hwparts.1
        simp only [nodupKeys, Bool.and_eq_true] at this
        exact this.2
      have hwobj : wfJson (Json.obj kvs) = true := by
        simp [wfJson, Bool.and_eq_true, hndtail, hwparts.2.2]
      have hpermTail : (dumpsItems kvs).Perm (dumpsItems kws) :=
        (ihs hwobj).2.2 kvs kws rfl rfl
      have hperm : (dumpsItems ((k, v) :: kvs)).Perm (dumpsItems ((k, w) :: kws)) := by
        simp only [dumpsItems]
        rw [(ihv hwparts.2.1).1]
        exact hpermTail.cons _
      have hndfull : nodupKeys (((k, v) :: kvs).map Prod.fst) = true := by
        simpa using hwparts.1
      refine ⟨dumps_obj_of_perm _ _ hperm hndfull, ?_, ?_⟩
      · intro xs ys hja hk
        exact nomatch hja
      intro kvs' kws' hj hk
      injection hj with hj'
      injection hk with hk'
      subst hj'
      subst hk'
      exact hperm
  | @objPerm kvs mid kws h1 hp ih =>
      intro hw
      have hpermMid : (dumpsItems kvs).Perm (dumpsItems mid) :=
        (ih hw).2.2 kvs mid rfl rfl
      have hperm : (dumpsItems kvs).Perm (dumpsItems kws) := by
        refine hpermMid.trans ?_
        rw [dumpsItems_eq_map, dumpsItems_eq_map]
        exact hp.map _
      have hnd : nodupKeys (kvs.map Prod.fst) = true := by
        have := hw
        simp only [wfJson, Bool.and_eq_true] at this
        exact this.1
      refine ⟨dumps_obj_of_perm _ _ hperm hnd, ?_, ?_⟩
      · intro xs ys hja hk
        exact nomatch hja
      intro kvs' kws' hj hk
      injection hj with hj'
      injection hk with hk'
      subst hj'
      subst hk'
      exact hperm

/-- C7: the fingerprint is a function of the canonical (`sort_keys=True`)
serialization, so it is deterministic, and for every well-formed payload
(distinct keys in every object, as a parsed `dict` guarantees) and every
key reordering of it the digest is unchanged. -/
theorem hash_reorder_invariant (P Q : Json) (h : ReorderOf P Q)
    (hw : wfJson P = true) :
    get_remote_json_hash P = get_remote_json_hash Q := by
  unfold get_remote_json_hash
  rw [(reorder_dumpsAgree h hw).1]

/-- Witness for C7: a two-key object and its key-swapped form fingerprint
identically. -/
theorem hash_reorder_invariant_witness :
    ReorderOf (Json.obj [("b", Json.num 1), ("a", Json.null)])
      (Json.obj [("a", Json.null), ("b", Json.num 1)]) ∧
    get_remote_json_hash (Json.obj [("b", Json.num 1), ("a", Json.null)]) =
      get_remote_json_hash (Json.obj [("a", Json.null), ("b", Json.num 1)]) := by
  have hre : ReorderOf (Json.obj [("b", Json.num 1), ("a", Json.null)])
      (Json.obj [("a", Json.null), ("b", Json.num 1)]) :=
    ReorderOf.objPerm
      (ReorderOf.objCons "b" (ReorderOf.num 1)
        (ReorderOf.objCons "a" ReorderOf.null ReorderOf.objNil))
      (List.Perm.swap ("a", Json.null) ("b", Json.num 1) [])
  refine ⟨hre, hash_reorder_invariant _ _ hre ?_⟩
  simp [wfJson, wfJsonItems, nodupKeys]

/-- Witness for C9 at a concrete base directory and date. -/
theorem staged_path_layout_witness :
    ("/data" : String) ≠ "" ∧
    pyJoin (get_date_path_directories "/data" 2024 3 5) "file.json" =
      "/data" ++ "/year=" ++ toString 2024 ++ "/month=" ++ toString 3 ++
        "/day=" ++ toString 5 ++ "/file.json" :=
  ⟨by decide, staged_path_layout "/data" 2024 3 5 (by decide) (by decide)⟩
